import Mathlib

/-!
Verification of `src/lec4/structured.cpp` (EvenSumFilter).

The file embeds the three pieces of logic in the C++ source:
  * `is_even`            — the predicate `x % 2 == 0` (C++ `%` on `int` is the
                           truncation-toward-zero remainder, i.e. `Int.tmod`);
  * `sum_evens_structured`     — the `for`-loop implementation printing the sum;
  * `sum_evens_non_structured` — the `goto`-based implementation,
                           modelled both as a tail-recursive function and as a
                           small-step state machine over the labels of the code;
  * the filter loop of `main`, which builds `evenNumbers` by `push_back`.

C++ `int` overflow is a caller responsibility per the documentation, so
integers are modelled as `Int`.  Every element access `data[i]` is embedded
through the `Option`-returning index `data[i]?`, so an out-of-bounds access
would surface as a `none` result; the loops are proved to never hit it.
The printed value (`"Total: <sum>"`) is modelled as the returned sum; the
rendering itself is captured by `total_output`.
-/

/-- `is_even` from the source: `return x % 2 == 0;` with C++ truncating
remainder. -/
def is_even (x : Int) : Bool := x.tmod 2 == 0

/-- The `for` loop of `sum_evens_structured`:
`for (int i = 0; i < data.size(); i++) { if (is_even(data[i])) sum += data[i]; }`.
Element access is `Option`-returning; `none` is the out-of-bounds branch. -/
def sum_evens_structured_loop (data : List Int) (i : Nat) (sum : Int) : Option Int :=
  if h : i < data.length then
    match data[i]? with
    | none => none
    | some x =>
        sum_evens_structured_loop data (i + 1) (if is_even x then sum + x else sum)
  else
    some sum
termination_by data.length - i
decreasing_by omega

/-- `sum_evens_structured` from the source: runs the loop from `i = 0`,
`sum = 0` and produces the value printed as `"Total: <sum>"`. -/
def sum_evens_structured (data : List Int) : Option Int :=
  sum_evens_structured_loop data 0 0

/-- The `goto` loop of `sum_evens_non_structured`, as a tail-recursive
function.  One pass from `loop_start`:
`if (i >= data.size()) goto loop_end; if (data[i] % 2 != 0) goto next_iteration;
sum += data[i]; next_iteration: i++; goto loop_start;`. -/
def sum_evens_non_structured_loop (data : List Int) (i : Nat) (sum : Int) : Option Int :=
  if h : i ≥ data.length then
    some sum
  else
    match data[i]? with
    | none => none
    | some x =>
        sum_evens_non_structured_loop data (i + 1)
          (if x.tmod 2 ≠ 0 then sum else sum + x)
termination_by data.length - i
decreasing_by omega

/-- `sum_evens_non_structured` from the source: starts at `i = 0`, `sum = 0`
and produces the value printed as `"Total: <sum>"` at `loop_end`. -/
def sum_evens_non_structured (data : List Int) : Option Int :=
  sum_evens_non_structured_loop data 0 0

/-- Rendering of the printed line `cout << "Total: " << sum << endl;`,
shared verbatim by both implementations. -/
def total_output (r : Option Int) : Option String :=
  r.map (fun sum => "Total: " ++ toString sum ++ "\n")

/-- The filter loop of `main`:
`for (int i = 0; i < numbers.size(); ++i) { if (numbers[i] % 2 == 0)
evenNumbers.push_back(numbers[i]); }`. -/
def main_filter_loop (numbers : List Int) (i : Nat) (evenNumbers : List Int) :
    Option (List Int) :=
  if h : i < numbers.length then
    match numbers[i]? with
    | none => none
    | some x =>
        main_filter_loop numbers (i + 1)
          (if x.tmod 2 == 0 then evenNumbers ++ [x] else evenNumbers)
  else
    some evenNumbers
termination_by numbers.length - i
decreasing_by omega

/-- `filterEvens`: the computation of `evenNumbers` in `main`, starting from
the empty vector. -/
def filterEvens (numbers : List Int) : Option (List Int) :=
  main_filter_loop numbers 0 []

/-- Program points of `sum_evens_non_structured`: the machine is either at
label `loop_start` with the current `i` and `sum`, or at `loop_end` with the
final `sum`. -/
inductive GotoState where
  | atLoopStart (i : Nat) (sum : Int) : GotoState
  | atLoopEnd (sum : Int) : GotoState
deriving DecidableEq, Repr

/-- One pass of the `goto` code from `loop_start` back to `loop_start` (or to
`loop_end`): the bounds check, the parity check with its jump to
`next_iteration`, the addition, and `i++`.  `loop_end` has no outgoing jump. -/
def goto_step (data : List Int) : GotoState → GotoState
  | .atLoopStart i sum =>
      if h : i ≥ data.length then
        .atLoopEnd sum
      else
        let x := data.get ⟨i, by omega⟩
        .atLoopStart (i + 1) (if x.tmod 2 ≠ 0 then sum else sum + x)
  | .atLoopEnd sum => .atLoopEnd sum

/-- Iterate the `goto` machine for `fuel` steps. -/
def goto_run (data : List Int) : Nat → GotoState → GotoState
  | 0, s => s
  | fuel + 1, s => goto_run data fuel (goto_step data s)

/-! ### Characterization lemmas: each loop computes a `List.filter`-based value -/

lemma is_even_iff_tmod (x : Int) : is_even x = true ↔ x.tmod 2 = 0 := by
  simp [is_even]

lemma structured_loop_spec (data : List Int) :
    ∀ k i sum, data.length - i ≤ k →
      sum_evens_structured_loop data i sum
        = some (sum + ((data.drop i).filter (fun x => is_even x)).sum) := by
  intro k
  induction k with
  | zero =>
      intro i sum h
      rw [sum_evens_structured_loop]
      rw [dif_neg (by omega)]
      rw [List.drop_eq_nil_of_le (by omega)]
      simp
  | succ k ih =>
      intro i sum h
      rw [sum_evens_structured_loop]
      by_cases hi : i < data.length
      · rw [dif_pos hi, List.getElem?_eq_getElem hi]
        dsimp only
        rw [ih (i + 1) _ (by omega)]
        rw [← List.getElem_cons_drop data i hi, List.filter_cons]
        by_cases he : is_even data[i]
        · simp only [he, if_pos, if_true]
          simp [List.sum_cons]
          ring
        · simp only [he, if_neg, if_false]
          simp [he]
      · rw [dif_neg hi]
        rw [List.drop_eq_nil_of_le (by omega)]
        simp

lemma non_structured_loop_spec (data : List Int) :
    ∀ k i sum, data.length - i ≤ k →
      sum_evens_non_structured_loop data i sum
        = some (sum + ((data.drop i).filter (fun x => is_even x)).sum) := by
  intro k
  induction k with
  | zero =>
      intro i sum h
      rw [sum_evens_non_structured_loop]
      rw [dif_pos (by omega)]
      rw [List.drop_eq_nil_of_le (by omega)]
      simp
  | succ k ih =>
      intro i sum h
      rw [sum_evens_non_structured_loop]
      by_cases hi : i ≥ data.length
      · rw [dif_pos hi]
        rw [List.drop_eq_nil_of_le (by omega)]
        simp
      · rw [dif_neg hi, List.getElem?_eq_getElem (by omega)]
        dsimp only
        rw [ih (i + 1) _ (by omega)]
        rw [← List.getElem_cons_drop data i (by omega), List.filter_cons]
        by_cases he : is_even data[i]
        · have ht : data[i].tmod 2 = 0 := (is_even_iff_tmod _).mp he
          rw [if_neg (by simp [ht])]
          simp only [he, if_true]
          simp [List.sum_cons]
          ring
        · have ht : data[i].tmod 2 ≠ 0 := fun hc => he ((is_even_iff_tmod _).mpr hc)
          rw [if_pos ht]
          simp [he]

lemma main_filter_loop_spec (numbers : List Int) :
    ∀ k i acc, numbers.length - i ≤ k →
      main_filter_loop numbers i acc
        = some (acc ++ (numbers.drop i).filter (fun x => is_even x)) := by
  intro k
  induction k with
  | zero =>
      intro i acc h
      rw [main_filter_loop]
      rw [dif_neg (by omega)]
      rw [List.drop_eq_nil_of_le (by omega)]
      simp
  | succ k ih =>
      intro i acc h
      rw [main_filter_loop]
      by_cases hi : i < numbers.length
      · rw [dif_pos hi, List.getElem?_eq_getElem hi]
        dsimp only
        rw [ih (i + 1) _ (by omega)]
        rw [← List.getElem_cons_drop numbers i hi, List.filter_cons]
        by_cases he : is_even numbers[i]
        · have ht : (numbers[i].tmod 2 == 0) = true := by
            simpa [is_even] using he
          rw [if_pos ht]
          simp [he]
        · have ht : ¬ ((numbers[i].tmod 2 == 0) = true) := by
            simpa [is_even] using he
          rw [if_neg ht]
          simp [he]
      · rw [dif_neg hi]
        rw [List.drop_eq_nil_of_le (by omega)]
        simp

lemma sum_evens_structured_eq (data : List Int) :
    sum_evens_structured data = some ((data.filter (fun x => is_even x)).sum) := by
  have h := structured_loop_spec data data.length 0 0 (by omega)
  simpa [sum_evens_structured] using h

lemma sum_evens_non_structured_eq (data : List Int) :
    sum_evens_non_structured data = some ((data.filter (fun x => is_even x)).sum) := by
  have h := non_structured_loop_spec data data.length 0 0 (by omega)
  simpa [sum_evens_non_structured] using h

lemma filterEvens_eq (numbers : List Int) :
    filterEvens numbers = some (numbers.filter (fun x => is_even x)) := by
  have h := main_filter_loop_spec numbers numbers.length 0 [] (by omega)
  simpa [filterEvens] using h

/-! ### The `goto` state machine -/

lemma goto_run_atLoopEnd (data : List Int) :
    ∀ k sum, goto_run data k (GotoState.atLoopEnd sum) = .atLoopEnd sum := by
  intro k
  induction k with
  | zero => intro sum; rfl
  | succ k ih =>
      intro sum
      simp only [goto_run, goto_step]
      exact ih sum

lemma goto_step_done (data : List Int) (i : Nat) (sum : Int) (h : i ≥ data.length) :
    goto_step data (.atLoopStart i sum) = .atLoopEnd sum := by
  simp [goto_step, h]

lemma goto_step_advance (data : List Int) (i : Nat) (sum : Int) (h : i < data.length) :
    goto_step data (.atLoopStart i sum)
      = .atLoopStart (i + 1) (if data[i].tmod 2 ≠ 0 then sum else sum + data[i]) := by
  rw [goto_step]
  rw [dif_neg (by omega)]
  simp

lemma goto_run_spec (data : List Int) :
    ∀ k i sum, data.length - i < k →
      goto_run data k (GotoState.atLoopStart i sum)
        = .atLoopEnd (sum + ((data.drop i).filter (fun x => is_even x)).sum) := by
  intro k
  induction k with
  | zero => intro i sum h; exact absurd h (by omega)
  | succ k ih =>
      intro i sum h
      simp only [goto_run]
      by_cases hi : i ≥ data.length
      · rw [goto_step_done data i sum hi, goto_run_atLoopEnd]
        rw [List.drop_eq_nil_of_le (by omega)]
        simp
      · rw [goto_step_advance data i sum (by omega)]
        rw [ih (i + 1) _ (by omega)]
        rw [← List.getElem_cons_drop data i (by omega), List.filter_cons]
        by_cases he : is_even data[i]
        · have ht : data[i].tmod 2 = 0 := (is_even_iff_tmod _).mp he
          rw [if_neg (by simp [ht])]
          simp [he, List.sum_cons]
          ring
        · have ht : data[i].tmod 2 ≠ 0 := fun hc => he ((is_even_iff_tmod _).mpr hc)
          rw [if_pos ht]
          simp [he]

lemma filter_is_even_idem (l : List Int) :
    (l.filter (fun x => is_even x)).filter (fun x => is_even x)
      = l.filter (fun x => is_even x) := by
  induction l with
  | nil => rfl
  | cons a l ih =>
      by_cases he : is_even a <;> simp [List.filter_cons, he, ih]

/-! ### Claim theorems -/

/-- Claim C1: for every finite sequence of integers `S`, `sumEvens S`
(the structured implementation) produces the sum of exactly the elements of
`S` for which `is_even` holds, in traversal order, and returns `0` for the
empty sequence.  The embedding is a pure function, so the only effect is the
returned value; the printing of that value is factored out as
`total_output`. -/
theorem sum_evens_structured_correct :
    (∀ S : List Int,
        sum_evens_structured S = some ((S.filter (fun x => is_even x)).sum))
    ∧ sum_evens_structured [] = some 0 := by
  refine ⟨fun S => sum_evens_structured_eq S, ?_⟩
  rw [sum_evens_structured_eq]
  rfl

/-- Claim C2: `filterEvens S` is exactly the subsequence of elements of `S`
satisfying `is_even`, in original relative order (`List.filter`), and in
particular `filterEvens [5,4,3,2,1] = [4,2]` and `filterEvens [] = []`. -/
theorem filterEvens_correct :
    (∀ S : List Int, filterEvens S = some (S.filter (fun x => is_even x)))
    ∧ filterEvens [5, 4, 3, 2, 1] = some [4, 2]
    ∧ filterEvens [] = some [] := by
  refine ⟨fun S => filterEvens_eq S, ?_, ?_⟩
  · rw [filterEvens_eq]; decide
  · rw [filterEvens_eq]; rfl

/-- Claim C3: `is_even x` is true iff `x` has remainder `0` modulo `2` under
truncation-toward-zero semantics (`Int.tmod`), which coincides with
divisibility by `2`; in particular `is_even (-2)` is true and `is_even (-3)`
is false.  The function is total (defined for every `Int`). -/
theorem is_even_correct :
    (∀ x : Int, is_even x = true ↔ x.tmod 2 = 0)
    ∧ (∀ x : Int, is_even x = true ↔ (2 : Int) ∣ x)
    ∧ is_even (-2) = true
    ∧ is_even (-3) = false := by
  refine ⟨is_even_iff_tmod, fun x => ?_, by decide, by decide⟩
  exact (is_even_iff_tmod x).trans Int.dvd_iff_tmod_eq_zero.symm

/-- Claim C4: the structured and the label-and-jump implementations are
behaviorally equivalent: on every input they compute the same sum and print
the same `"Total: <sum>"` line. -/
theorem structured_non_structured_equiv :
    ∀ S : List Int,
      sum_evens_non_structured S = sum_evens_structured S
      ∧ total_output (sum_evens_non_structured S)
          = total_output (sum_evens_structured S) := by
  intro S
  rw [sum_evens_non_structured_eq, sum_evens_structured_eq]
  exact ⟨rfl, rfl⟩

/-- Claim C5: for every sequence `S`, `sumEvens S` equals the sum of the
elements of `filterEvens S`. -/
theorem sum_evens_eq_sum_filterEvens :
    ∀ S : List Int,
      sum_evens_structured S = Option.map List.sum (filterEvens S) := by
  intro S
  rw [sum_evens_structured_eq, filterEvens_eq]
  rfl

/-- Claim C6: `filterEvens` is idempotent: applying it to its own output
yields the same output. -/
theorem filterEvens_idempotent :
    ∀ S : List Int, (filterEvens S).bind filterEvens = filterEvens S := by
  intro S
  rw [filterEvens_eq]
  simp only [Option.some_bind]
  rw [filterEvens_eq, filter_is_even_idem]

/-- Claim C7: on the input `[1,2,3,4,5,6,7,8,9,10]`, `sumEvens` returns `30`
and `filterEvens` returns `[2,4,6,8,10]`. -/
theorem concrete_scenario :
    sum_evens_structured [1, 2, 3, 4, 5, 6, 7, 8, 9, 10] = some 30
    ∧ filterEvens [1, 2, 3, 4, 5, 6, 7, 8, 9, 10] = some [2, 4, 6, 8, 10] := by
  constructor
  · rw [sum_evens_structured_eq]; decide
  · rw [filterEvens_eq]; decide

/-- Claim C8: on the input `[-4,-3,-2,-1,0]`, which contains negative
integers and zero, `filterEvens` returns `[-4,-2,0]` and `sumEvens`
returns `-6`. -/
theorem negative_numbers_scenario :
    filterEvens [-4, -3, -2, -1, 0] = some [-4, -2, 0]
    ∧ sum_evens_structured [-4, -3, -2, -1, 0] = some (-6) := by
  constructor
  · rw [filterEvens_eq]; decide
  · rw [sum_evens_structured_eq]; decide

/-- Claim C9: no loop of the program ever takes the out-of-bounds branch of
the `Option`-returning indexing: the structured sum loop, the `goto` sum
loop and the filter loop of `main` all return `some` value on every input. -/
theorem loops_never_out_of_bounds :
    ∀ S : List Int,
      (sum_evens_structured S).isSome
      ∧ (sum_evens_non_structured S).isSome
      ∧ (filterEvens S).isSome := by
  intro S
  rw [sum_evens_structured_eq, sum_evens_non_structured_eq, filterEvens_eq]
  exact ⟨rfl, rfl, rfl⟩

/-- Claim C10: the `goto` loop of `sum_evens_non_structured` terminates on
every finite input: from any state at `loop_start` with index `i`, at most
`size - i + 1` passes reach `loop_end` (the index strictly increases each
pass), and the final sum is the filtered sum of the remaining elements. -/
theorem goto_loop_terminates :
    ∀ (data : List Int) (i : Nat) (sum : Int),
      goto_run data (data.length - i + 1) (GotoState.atLoopStart i sum)
        = .atLoopEnd (sum + ((data.drop i).filter (fun x => is_even x)).sum) := by
  intro data i sum
  exact goto_run_spec data (data.length - i + 1) i sum (by omega)
